import Mathlib

/-!
Verification of the `term_app_pack` terminal-UI toolkit.

Shallow embedding of the Python sources `utils.py`, `termutils.py` and
`apps.py`.  Strings are modelled as lists of Unicode code points
(`PyStr := List ℕ`), Python integers as `ℤ` where they may go negative,
and Python float scores as exact rationals (`ℚ`).  Effectful code
(the input recorder) is modelled as explicit state passing or as an
event trace.
-/

namespace TermAppPack

/-- A Python character, as its Unicode code point. -/
abbrev PyChar := ℕ

/-- A Python string, as the list of its characters' code points. -/
abbrev PyStr := List ℕ

/-! ## utils.py : SequencePointer -/

/-- State of `utils.SequencePointer`: the underlying list, the internal
pointer (a Python `int`, hence `ℤ`) and the private `__cycle` flag. -/
structure SequencePointer (α : Type) where
  seq : List α
  pointer : ℤ
  cycle : Bool
  deriving Repr

/-- `SequencePointer.__init__`: stores the sequence and sets the pointer
to 0. -/
def SequencePointer.ofList (l : List α) (cycle : Bool) : SequencePointer α :=
  { seq := l, pointer := 0, cycle := cycle }

/-- `SequencePointer.next(n)` from `utils.py`:
`_next = pointer + n; if _next + 1 > len: pointer = _next - len if cycle
else len - 1; else pointer = _next`. -/
def SequencePointer.next (s : SequencePointer α) (n : ℤ) : SequencePointer α :=
  let nxt := s.pointer + n
  let len : ℤ := s.seq.length
  if nxt + 1 > len then
    { s with pointer := if s.cycle then nxt - len else len - 1 }
  else
    { s with pointer := nxt }

/-- `SequencePointer.previous(n)` from `utils.py`:
`_prev = pointer - n; if _prev < 0: pointer = len + _prev if cycle else 0;
else pointer = _prev`. -/
def SequencePointer.previous (s : SequencePointer α) (n : ℤ) : SequencePointer α :=
  let prev := s.pointer - n
  let len : ℤ := s.seq.length
  if prev < 0 then
    { s with pointer := if s.cycle then len + prev else 0 }
  else
    { s with pointer := prev }

/-- The `pointer` property setter from `utils.py`:
`self._pointer = new_position if new_position < len(self) else len(self) - 1`. -/
def SequencePointer.set_pointer (s : SequencePointer α) (v : ℤ) : SequencePointer α :=
  if v < (s.seq.length : ℤ) then { s with pointer := v }
  else { s with pointer := (s.seq.length : ℤ) - 1 }

/-! ## apps.py : FuzzyFinder matching -/

/-- `str.casefold` on a single character, restricted to the ASCII plane
(the plane all claims exercise), where case folding is lowercasing. -/
def casefoldChar (c : PyChar) : PyChar :=
  if 0x41 ≤ c ∧ c ≤ 0x5a then c + 0x20 else c

/-- Python `s.find(c, start)` for a single-character needle: the first
index `i ≥ start` with `s[i] = c`, or `None` in place of `-1`. -/
def findFrom (s : PyStr) (c : PyChar) (start : ℕ) : Option ℕ :=
  ((s.drop start).findIdx? (fun x => x == c)).map (fun j => start + j)

/-- One iteration of the `for char in query` loop of
`FuzzyFinder._matches_query` (apps.py).  The accumulator carries
`(last_index, score, indices)`; `none` is the early `return` (no match).
Python float literals `0.05` and `0.5` are modelled as exact rationals. -/
def matchStep (item iItem : PyStr) (acc : Option (ℤ × ℚ × List ℕ)) (c : PyChar) :
    Option (ℤ × ℚ × List ℕ) :=
  match acc with
  | none => none
  | some (last, score, indices) =>
    match findFrom iItem (casefoldChar c) (last + 1).toNat with
    | none => none
    | some i =>
      some ((i : ℤ),
        score + (if item.getD i 0 ≠ c
                  then 1/2 + ((i : ℚ) - (last : ℚ) - 1) * (1/20)
                  else 1 + ((i : ℚ) - (last : ℚ) - 1) * (1/20)),
        indices ++ [i])

/-- `FuzzyFinder._matches_query(query, item)` (apps.py): walks the
case-folded query over the case-folded item; returns
`(indices, score / (last_index + 1))` when the walk succeeds and the
index list is non-empty (`if indices:`), `None` otherwise. -/
def matches_query (query item : PyStr) : Option (List ℕ × ℚ) :=
  let iItem := item.map casefoldChar
  match query.foldl (matchStep item iItem) (some (-1, 0, [])) with
  | none => none
  | some (last, score, indices) =>
    if indices.isEmpty then none else some (indices, score / ((last : ℚ) + 1))

/-- Modelled from the spec's words for claim C3 (matching step 1–3 of
§4.5): fold both strings to lowercase, walk the query left to right
taking for each character the next occurrence after the last matched
index (no occurrence ⇒ no match), add `0.5 + 0.05·g` to the raw score
when the original case differs and `1 + 0.05·g` otherwise (gap
`g = i − last − 1`), and finally return
`(indices, raw / (last_matched_index + 1))`. -/
def specWalk (item iItem : PyStr) :
    PyStr → ℤ → ℚ → List ℕ → Option (List ℕ × ℚ)
  | [], last, raw, indices =>
    if indices.isEmpty then none else some (indices, raw / ((last : ℚ) + 1))
  | c :: rest, last, raw, indices =>
    match findFrom iItem (casefoldChar c) (last + 1).toNat with
    | none => none
    | some i =>
      specWalk item iItem rest (i : ℤ)
        (raw + (if item.getD i 0 ≠ c
                 then 1/2 + ((i : ℚ) - (last : ℚ) - 1) * (1/20)
                 else 1 + ((i : ℚ) - (last : ℚ) - 1) * (1/20)))
        (indices ++ [i])

/-- The spec-side description of the fuzzy matcher as a whole
(see `specWalk`). -/
def matchesSpec (query item : PyStr) : Option (List ℕ × ℚ) :=
  specWalk item (item.map casefoldChar) query (-1) 0 []

/-! ## apps.py : FuzzyFinder viewport -/

/-- The viewport-relevant state of `FuzzyFinder`: the filtered sublist
(a non-cyclic `SequencePointer` in the source), `_start_index` and
`_maxlines`. -/
structure FFState (α : Type) where
  sub : SequencePointer α
  start_index : ℤ
  maxlines : ℤ

/-- `FuzzyFinder.scroll_up(n)` (apps.py); the `writelines` redraw carries
no state. -/
def FFState.scroll_up (f : FFState α) (n : ℤ) : FFState α :=
  if f.start_index > 0 then
    { f with start_index := f.start_index - min n f.start_index }
  else f

/-- `FuzzyFinder.scroll_down(n)` (apps.py). -/
def FFState.scroll_down (f : FFState α) (n : ℤ) : FFState α :=
  let listsize : ℤ := f.sub.seq.length
  if f.start_index + f.maxlines < listsize then
    { f with start_index := f.start_index + min n (listsize - f.start_index - f.maxlines) }
  else f

/-- `FuzzyFinder.scroll_to_view` (apps.py): if
`offset = pointer − start_index` is not in `range(0, maxlines)`, scroll
up or down by `|offset|`. -/
def FFState.scroll_to_view (f : FFState α) : FFState α :=
  let offset := f.sub.pointer - f.start_index
  if ¬ (0 ≤ offset ∧ offset < f.maxlines) then
    if offset < 0 then f.scroll_up |offset| else f.scroll_down |offset|
  else f

/-- `FuzzyFinder.next_item(n)` (apps.py); `highlight`, `footer` and
`flush` are rendering-only. -/
def FFState.next_item (f : FFState α) (n : ℤ) : FFState α :=
  if f.sub.seq.length ≠ 0 then
    let f1 := { f with sub := f.sub.next n }
    if f1.sub.pointer ≥ f1.start_index + f1.maxlines then
      f1.scroll_down (f1.sub.pointer - f1.start_index - f1.maxlines + 1)
    else f1
  else f

/-- `FuzzyFinder.previous_item(n)` (apps.py). -/
def FFState.previous_item (f : FFState α) (n : ℤ) : FFState α :=
  if f.sub.seq.length ≠ 0 then
    let f1 := { f with sub := f.sub.previous n }
    if f1.sub.pointer < f1.start_index then f1.scroll_to_view else f1
  else f

/-- The viewport invariant claimed for `FuzzyFinder`: the pointer is in
range and inside the visible window, and `start_index` lies in
`[0, max 0 (len − maxlines)]`. -/
def FFInv (f : FFState α) : Prop :=
  0 ≤ f.sub.pointer ∧ f.sub.pointer < (f.sub.seq.length : ℤ) ∧
  f.start_index ≤ f.sub.pointer ∧ f.sub.pointer < f.start_index + f.maxlines ∧
  0 ≤ f.start_index ∧ f.start_index ≤ max 0 ((f.sub.seq.length : ℤ) - f.maxlines)

/-- The concrete 50-item scenario of claim C5 (items are immaterial;
`maxlines = 10`, pointer 0, `start_index` 0, non-cyclic). -/
def ff50 : FFState ℕ :=
  { sub := SequencePointer.ofList (List.replicate 50 0) false
    start_index := 0
    maxlines := 10 }

/-! ## utils.py : trim -/

/-- Python `s[:i]` with a possibly negative bound (`max 0 (len + i)`
when `i < 0`). -/
def pySliceTo (s : PyStr) (i : ℤ) : PyStr :=
  s.take (if 0 ≤ i then i.toNat else ((s.length : ℤ) + i).toNat)

/-- Python `s[j:]` with a possibly negative start. -/
def pySliceFrom (s : PyStr) (j : ℤ) : PyStr :=
  s.drop (if 0 ≤ j then j.toNat else ((s.length : ℤ) + j).toNat)

/-- `utils.trim(string, precision, rstart=0)`:
`if 3 <= precision <= len(string): return string[:precision-rstart-3] +
'...' + string[len(string)-rstart:]; return string`. -/
def trim (s : PyStr) (precision : ℤ) (rstart : ℤ) : PyStr :=
  if 3 ≤ precision ∧ precision ≤ (s.length : ℤ) then
    pySliceTo s (precision - rstart - 3) ++ [0x2e, 0x2e, 0x2e] ++
      pySliceFrom s ((s.length : ℤ) - rstart)
  else s

/-! ## utils.py : Ctrl alias sets used by LineBuffer -/

/-- `Ctrl.ENTER = '\r', '\n', '\x1bOM'`. -/
def enterCodes : List PyStr := [[0x0d], [0x0a], [0x1b, 0x4f, 0x4d]]

/-- `Ctrl.DEL = '\x2e', '\x1b[3~', '\x00S', '\xe0S'` — note the first
alias is the printable character `'.'` (0x2e). -/
def delCodes : List PyStr :=
  [[0x2e], [0x1b, 0x5b, 0x33, 0x7e], [0x00, 0x53], [0xe0, 0x53]]

/-- `Ctrl.BACKSPACE = '\x7f', '\x08'`. -/
def backspaceCodes : List PyStr := [[0x7f], [0x08]]

/-- `Ctrl.TAB = '\t', '\x1bOI'`. -/
def tabCodes : List PyStr := [[0x09], [0x1b, 0x4f, 0x49]]

/-- `Ctrl.R_ARROW = '\x1b[C', '\xe0M', '\x1bOC', '\x00M'`. -/
def rArrowCodes : List PyStr :=
  [[0x1b, 0x5b, 0x43], [0xe0, 0x4d], [0x1b, 0x4f, 0x43], [0x00, 0x4d]]

/-- `Ctrl.L_ARROW = '\x1b[D', '\xe0K', '\x1bOD', '\x00K'`. -/
def lArrowCodes : List PyStr :=
  [[0x1b, 0x5b, 0x44], [0xe0, 0x4b], [0x1b, 0x4f, 0x44], [0x00, 0x4b]]

/-- `Ctrl.U_ARROW = '\x1b[A', '\xe0H', '\x1bOA', '\x00H'`. -/
def uArrowCodes : List PyStr :=
  [[0x1b, 0x5b, 0x41], [0xe0, 0x48], [0x1b, 0x4f, 0x41], [0x00, 0x48]]

/-- `Ctrl.D_ARROW = '\x1b[B', '\xe0P', '\x1bOB', '\x00P'`. -/
def dArrowCodes : List PyStr :=
  [[0x1b, 0x5b, 0x42], [0xe0, 0x50], [0x1b, 0x4f, 0x42], [0x00, 0x50]]

/-- `Ctrl.HOME = '\x1b[H', '\xe0G', '\x1bOH', '\x1b[1~', '\x00G'`. -/
def homeCodes : List PyStr :=
  [[0x1b, 0x5b, 0x48], [0xe0, 0x47], [0x1b, 0x4f, 0x48],
   [0x1b, 0x5b, 0x31, 0x7e], [0x00, 0x47]]

/-- `Ctrl.END = '\x1b[F', '\xe0O', '\x1bOF', '\x1b[4~', '\x00O'`. -/
def endCodes : List PyStr :=
  [[0x1b, 0x5b, 0x46], [0xe0, 0x4f], [0x1b, 0x4f, 0x46],
   [0x1b, 0x5b, 0x34, 0x7e], [0x00, 0x4f]]

/-- `Ctrl.CTRL_LARROW = '\xe0s', '\x00s'`. -/
def ctrlLArrowCodes : List PyStr := [[0xe0, 0x73], [0x00, 0x73]]

/-- `Ctrl.CTRL_RARROW = '\xe0t', '\x00t'`. -/
def ctrlRArrowCodes : List PyStr := [[0xe0, 0x74], [0x00, 0x74]]

/-- `Ctrl.OPT_LARROW = '\x1bb'`. -/
def optLArrowCodes : List PyStr := [[0x1b, 0x62]]

/-- `Ctrl.OPT_RARROW = '\x1bf'`. -/
def optRArrowCodes : List PyStr := [[0x1b, 0x66]]

/-- `Ctrl.__eq__` against a string: membership of the burst in the
symbol's alias set. -/
def ctrlEq (codes : List PyStr) (s : PyStr) : Bool := codes.contains s

/-! ## termutils.py : LineBuffer -/

/-- The set of code points for which Python `str.isspace()` holds
(Unicode whitespace plus bidirectional classes WS, B and S). -/
def spaceCodes : List PyChar :=
  [0x09, 0x0a, 0x0b, 0x0c, 0x0d, 0x1c, 0x1d, 0x1e, 0x1f, 0x20, 0x85, 0xa0,
   0x1680, 0x2000, 0x2001, 0x2002, 0x2003, 0x2004, 0x2005, 0x2006, 0x2007,
   0x2008, 0x2009, 0x200a, 0x2028, 0x2029, 0x202f, 0x205f, 0x3000]

/-- Python `str.isspace()` for a single character. -/
def isspaceChar (c : PyChar) : Bool := spaceCodes.contains c

/-- Python `str.isspace()`: non-empty and every character is
whitespace. -/
def pyIsspace (s : PyStr) : Bool := !s.isEmpty && s.all isspaceChar

/-- `'\t'.expandtabs(t)`: a single tab at column 0 expands to `t`
spaces. -/
def expandTab (t : ℕ) : PyStr := List.replicate t 0x20

/-- `(?=\s+\S+)` at position `e` of `s`: at least one whitespace
character follows and a non-whitespace character follows the run. -/
def lookaheadWS (s : PyStr) (e : ℕ) : Bool :=
  let t := s.drop e
  let r := (t.takeWhile isspaceChar).length
  decide (1 ≤ r ∧ r < t.length)

/-- `(?<!\s)` at position `e` of `s`: no preceding character, or the
preceding character is not whitespace. -/
def lookbehindNotWS (s : PyStr) (e : ℕ) : Bool :=
  e == 0 || !isspaceChar (s.getD (e - 1) 0)

/-- `re.search(r'.*(?<!\s)(?=\s+\S+)', s)` and its `.end()`: leftmost
match start, greedy `.*` (which cannot cross a newline); `none` when
there is no match.  Used by the CTRL/OPT-left word jump. -/
def searchLeftEnd (s : PyStr) : Option ℕ :=
  (List.range (s.length + 1)).findSome? (fun st =>
    let limit := st + ((s.drop st).takeWhile (fun c => c != 0x0a)).length
    ((List.range (limit - st + 1)).map (fun d => limit - d)).find? (fun e =>
      lookbehindNotWS s e && lookaheadWS s e))

/-- `re.search(r'\s+(?=\S)', s)` and its `.end()`: the end of the
leftmost whitespace run that is followed by a non-whitespace character.
Used by the CTRL/OPT-right word jump. -/
def searchRightEnd (s : PyStr) : Option ℕ :=
  (List.range s.length).findSome? (fun st =>
    if isspaceChar (s.getD st 0) then
      let r := ((s.drop st).takeWhile isspaceChar).length
      if st + r < s.length then some (st + r) else none
    else none)

/-- State of `termutils.LineBuffer`.  `pos` is the absolute cursor
position measured from the start of the prompt (the source's `_pos`);
reachable states keep `pos ≥ len prompt`, so it is modelled as `ℕ`. -/
structure LineBuffer where
  line : PyStr
  pos : ℕ
  prompt : PyStr
  local_history : List PyStr
  history_pos : ℕ
  send_with_enter : Bool
  cursor_movement : Bool
  use_history : Bool
  tabsize : ℕ
  deriving DecidableEq, Repr

/-- A `LineBuffer` as produced by `LineBuffer.__init__` with the default
flags (`reset` gives the empty line, cursor 0 and empty prompt). -/
def LineBuffer.init : LineBuffer :=
  { line := [], pos := 0, prompt := [], local_history := [], history_pos := 0,
    send_with_enter := true, cursor_movement := true, use_history := true,
    tabsize := 4 }

/-- `LineBuffer.cursor_left(n)`: moves left by at most the offset from
the prompt boundary; returns the updated buffer and the `valid` flag. -/
def LineBuffer.cursor_left (b : LineBuffer) (n : ℕ) : LineBuffer × Bool :=
  let offset := b.pos - b.prompt.length
  if 0 < offset then ({ b with pos := b.pos - min n offset }, true)
  else (b, false)

/-- `LineBuffer.cursor_right(n)`. -/
def LineBuffer.cursor_right (b : LineBuffer) (n : ℕ) : LineBuffer × Bool :=
  let offset := (b.prompt.length + b.line.length) - b.pos
  if 0 < offset then ({ b with pos := b.pos + min n offset }, true)
  else (b, false)

/-- `LineBuffer.history_up`.  The Python negative-index access
`local_history[-history_pos - 1]` is modelled with `getD` (an
out-of-range access, an `IndexError` in Python, yields the default);
no claim exercises this branch. -/
def LineBuffer.history_up (b : LineBuffer) : LineBuffer :=
  if b.history_pos = 0 ∨ b.history_pos + 1 < b.local_history.length then
    let hist := if b.history_pos = 0 then b.local_history ++ [b.line]
                else b.local_history
    let hp := b.history_pos + 1
    let ln := hist.getD (hist.length - (hp + 1)) []
    { b with local_history := hist, history_pos := hp, line := ln,
             pos := ln.length + b.prompt.length }
  else b

/-- `LineBuffer.history_down` (`pop` on an empty history, an error in
Python, is modelled with `getLastD`; no claim exercises this branch). -/
def LineBuffer.history_down (b : LineBuffer) : LineBuffer :=
  if 0 < b.history_pos then
    let hp := b.history_pos - 1
    if hp = 0 then
      let ln := b.local_history.getLastD []
      { b with history_pos := hp, local_history := b.local_history.dropLast,
               line := ln, pos := ln.length + b.prompt.length }
    else
      let ln := b.local_history.getD (b.local_history.length - (hp + 1)) []
      { b with history_pos := hp, line := ln,
               pos := ln.length + b.prompt.length }
  else b

/-- `LineBuffer.enter_send`: commits the line to history (deduplicating
an adjacent duplicate), clears the line, resets the cursor to the prompt
end and returns the committed text. -/
def LineBuffer.enter_send (b : LineBuffer) : LineBuffer × PyStr :=
  let hist :=
    if b.local_history.isEmpty = true ∨ b.line ≠ b.local_history.getLastD [] then
      (if b.history_pos ≠ 0 then b.local_history.dropLast else b.local_history)
        ++ [b.line]
    else b.local_history
  ({ b with local_history := hist, line := [], pos := b.prompt.length }, b.line)

/-- `LineBuffer.insert(char)` (termutils.py): accepts the burst iff
`char != Ctrl.ENTER and char.isspace() or len(char) == 1 and ord(char)
not in range(0x00, 0x20)`; on acceptance splices the burst into the line
at `_pos` and advances `_pos` by 1. -/
def LineBuffer.insert (b : LineBuffer) (char : PyStr) : LineBuffer :=
  if (ctrlEq enterCodes char = false ∧ pyIsspace char = true) ∨
     (char.length = 1 ∧ 0x20 ≤ char.headI) then
    { b with line := b.line.take b.pos ++ char ++ b.line.drop b.pos,
             pos := b.pos + 1 }
  else b

/-- `LineBuffer.key(char)` (termutils.py): the full dispatch.  Returns
the updated buffer and the optional committed line (`enter_send`'s
result when `send_with_enter` and the burst is ENTER). -/
def LineBuffer.key (b : LineBuffer) (char : PyStr) : LineBuffer × Option PyStr :=
  if ctrlEq delCodes char || ctrlEq backspaceCodes char then
    if ctrlEq delCodes char = true ∧ b.pos < b.prompt.length + b.line.length then
      let tp := b.pos - b.prompt.length
      ({ b with line := b.line.take tp ++ b.line.drop (tp + 1) }, none)
    else if ctrlEq backspaceCodes char then
      let m := b.cursor_left 1
      if m.2 then
        let tp := m.1.pos - m.1.prompt.length
        ({ m.1 with line := m.1.line.take tp ++ m.1.line.drop (tp + 1) }, none)
      else (m.1, none)
    else (b, none)
  else if ctrlEq tabCodes char then
    (b.insert (expandTab b.tabsize), none)
  else
    let b1 := b.insert char
    let b2 :=
      if b1.cursor_movement then
        if ctrlEq rArrowCodes char then (b1.cursor_right 1).1
        else if ctrlEq lArrowCodes char then (b1.cursor_left 1).1
        else if ctrlEq homeCodes char then (b1.cursor_left b1.line.length).1
        else if ctrlEq endCodes char then (b1.cursor_right b1.line.length).1
        else if ctrlEq ctrlLArrowCodes char || ctrlEq optLArrowCodes char then
          let tp := b1.pos - b1.prompt.length
          let offset :=
            match searchLeftEnd (b1.line.take tp) with
            | some e => tp - e
            | none => b1.line.length
          (b1.cursor_left offset).1
        else if ctrlEq ctrlRArrowCodes char || ctrlEq optRArrowCodes char then
          let offset :=
            match searchRightEnd (b1.line.drop ((b1.pos - b1.prompt.length) + 1)) with
            | some e => e + 1
            | none => b1.line.length
          (b1.cursor_right offset).1
        else b1
      else b1
    let b3 :=
      if b2.use_history then
        if ctrlEq uArrowCodes char then b2.history_up
        else if ctrlEq dArrowCodes char then b2.history_down
        else b2
      else b2
    if b3.send_with_enter = true ∧ ctrlEq enterCodes char = true then
      let r := b3.enter_send
      (r.1, some r.2)
    else (b3, none)

/-- The acceptance condition of claim C6 as amended, stated
independently of the code: the burst is a non-empty all-whitespace
string that is not an ENTER alias, or a single character with code
≥ 0x20. -/
def insertAccepts (s : PyStr) : Prop :=
  (s ≠ [] ∧ (∀ c ∈ s, isspaceChar c = true) ∧
    s ≠ [0x0d] ∧ s ≠ [0x0a] ∧ s ≠ [0x1b, 0x4f, 0x4d]) ∨
  (∃ c, s = [c] ∧ 0x20 ≤ c)

/-! ## termutils.py : TermInReader -/

/-- Events observable in `TermInReader._handle`: the bound actions for
the burst firing (by position in the binding list), `end()` restoring
the saved termios, `sys.exit(code)` being raised, and the active hook
receiving the burst.  Bound actions and the hook are opaque here — the
claims concern the dispatch order and the rescue control flow, assuming
the actions return normally. -/
inductive HandleEvent where
  | runBinding (idx : ℕ)
  | endRecorder
  | sysExit (code : ℕ)
  | runHook (key : PyStr)
  deriving DecidableEq, Repr

/-- `TermInReader._handle(key)` as an event trace: every action bound to
the burst fires in order; then, if the burst is `'\x04'` (CTRL_D),
`end()` runs and `sys.exit(1)` is raised — the source checks only
`key == '\x04'`, whether or not CTRL_D is bound — so the hook is not
reached; otherwise the active hook receives the burst.
`numBindings key` is the length of `bindings.get(key, [])`. -/
def handle (numBindings : PyStr → ℕ) (key : PyStr) : List HandleEvent :=
  ((List.range (numBindings key)).map HandleEvent.runBinding) ++
    (if key = [0x04] then [HandleEvent.endRecorder, HandleEvent.sysExit 1]
     else [HandleEvent.runHook key])

/-- A bindings table with exactly one action bound to CTRL_D and nothing
else (as `recorder.bind(Ctrl.CTRL_D, f)` produces for the `'\x04'`
alias). -/
def boundCtrlD : PyStr → ℕ := fun k => if k = [0x04] then 1 else 0

/-- The tty line discipline (cooked = canonical+echo, raw =
non-canonical+no-echo, the result of `tty.setraw` plus the lflags/cc
tweak in `new_settings`). -/
inductive LineDiscipline where
  | cookedMode
  | rawMode
  deriving DecidableEq, Repr

/-- Per-recorder state: the `normal` flag and the saved `_old_settings`
snapshot. -/
structure RecorderState where
  normal : Bool
  old_settings : Option LineDiscipline
  deriving DecidableEq, Repr

/-- The process-wide state the recorders share: the tty discipline, the
weak registry of live recorders (`TermInReader.__instances`, as a list
indexed by recorder), and the stdin environment flags checked by
`new_settings`. -/
structure TtyWorld where
  discipline : LineDiscipline
  recs : List RecorderState
  stdin_piped : Bool
  stdin_closed : Bool
  deriving DecidableEq, Repr

/-- The fatal errors `new_settings`/`start` can raise. -/
inductive TermError where
  | pipedStdin
  | closedStdin
  | conflict
  deriving DecidableEq, Repr

/-- `TermInReader.new_settings` for recorder `i`: raises on a piped
stdin; when `normal`, raises on a closed stdin (the `finally` block
still clears `normal`, as in the source), otherwise calls `tty.setraw`
(the tty change), snapshots `_old_settings` if unset — after `setraw`,
as in the source — applies the lflags/cc tweak and clears `normal`.
Returns the world after the call and the raised error, if any;
mutations made before a raise persist. -/
def new_settings (w : TtyWorld) (i : ℕ) : TtyWorld × Option TermError :=
  if w.stdin_piped then (w, some TermError.pipedStdin)
  else
    let r := w.recs.getD i { normal := true, old_settings := none }
    if r.normal then
      if w.stdin_closed then
        ({ w with recs := w.recs.set i { r with normal := false } },
          some TermError.closedStdin)
      else
        let w1 := { w with discipline := LineDiscipline.rawMode }
        let r1 := if r.old_settings.isNone
          then { r with old_settings := some w1.discipline } else r
        ({ w1 with recs := w1.recs.set i { r1 with normal := false } }, none)
    else (w, none)

/-- The conflict check and raw-mode entry performed by
`TermInReader.start` before the read loop (termutils.py): raise the
conflict error when any other live recorder is not `normal` — before
any tty change — otherwise enter raw mode via `new_settings`.  The read
loop and the final `end()` operate only after this prefix and are not
reached on the failure path the claim is about. -/
def start_enter (w : TtyWorld) (i : ℕ) : TtyWorld × Option TermError :=
  if (List.range w.recs.length).any
      (fun j => j != i &&
        !(w.recs.getD j { normal := true, old_settings := none }).normal) then
    (w, some TermError.conflict)
  else new_settings w i

/-- A world with two live recorders in which recorder 0 has started
(it is no longer `normal` and the tty is raw): the scenario of the
conflict claim. -/
def conflictWorld : TtyWorld :=
  { discipline := LineDiscipline.rawMode,
    recs := [{ normal := false, old_settings := some LineDiscipline.rawMode },
             { normal := true, old_settings := none }],
    stdin_piped := false, stdin_closed := false }

/-! # Theorems -/

/-! Helper lemmas about the pointer moves (shared by several
claims below). -/

lemma SequencePointer.next_seq (s : SequencePointer α) (n : ℤ) :
    (s.next n).seq = s.seq := by
  unfold SequencePointer.next; dsimp only; split <;> rfl

lemma SequencePointer.previous_seq (s : SequencePointer α) (n : ℤ) :
    (s.previous n).seq = s.seq := by
  unfold SequencePointer.previous; dsimp only; split <;> rfl

lemma SequencePointer.next_pointer_noncyclic (s : SequencePointer α) (n : ℤ)
    (h : s.cycle = false) :
    (s.next n).pointer = min (s.pointer + n) ((s.seq.length : ℤ) - 1) := by
  unfold SequencePointer.next
  dsimp only
  split <;> rename_i hsplit <;> simp [h] <;> omega

lemma SequencePointer.previous_pointer_noncyclic (s : SequencePointer α) (n : ℤ)
    (h : s.cycle = false) :
    (s.previous n).pointer = max (s.pointer - n) 0 := by
  unfold SequencePointer.previous
  dsimp only
  split <;> rename_i hsplit <;> simp [h] <;> omega

lemma SequencePointer.next_pointer_cyclic (s : SequencePointer α) (n : ℤ)
    (h : s.cycle = true) :
    (s.next n).pointer =
      if s.pointer + n + 1 > (s.seq.length : ℤ) then s.pointer + n - s.seq.length
      else s.pointer + n := by
  unfold SequencePointer.next
  dsimp only
  split <;> rename_i hsplit <;> simp [h, hsplit]

lemma SequencePointer.previous_pointer_cyclic (s : SequencePointer α) (n : ℤ)
    (h : s.cycle = true) :
    (s.previous n).pointer =
      if s.pointer - n < 0 then (s.seq.length : ℤ) + (s.pointer - n)
      else s.pointer - n := by
  unfold SequencePointer.previous
  dsimp only
  split <;> rename_i hsplit <;> simp [h, hsplit]

/-- C1 (counterexample): on the singleton cyclic list `[0]` with pointer 0,
`next 2` yields pointer 1, whereas the claim's `(p+k) mod n` is
`(0+2) mod 1 = 0` — the code subtracts the length only once, so for
`p + k ≥ 2n` the cyclic advance does not equal `(p+k) mod n`. -/
theorem claim1_counterexample :
    ((SequencePointer.ofList [(0 : ℕ)] true).next 2).pointer = 1 ∧
    (((SequencePointer.ofList [(0 : ℕ)] true).pointer + 2) %
        ((SequencePointer.ofList [(0 : ℕ)] true).seq.length : ℤ)) = 0 := by
  constructor <;> decide

/-- C1 (amended): on a non-empty list of length n with pointer p ∈ [0, n)
and delta k ≥ 0: when cyclic, `next k` gives `(p+k) mod n` provided
`p + k < 2n`, and `previous k` gives `(p−k) mod n` provided `p − k ≥ −n`
(the code adds or subtracts n at most once); when not cyclic, `next k`
gives `min (p+k) (n−1)` and `previous k` gives `max (p−k) 0` for all k. -/
theorem claim1_amended_next_previous (s : SequencePointer α) (k : ℤ)
    (hp0 : 0 ≤ s.pointer) (hpn : s.pointer < (s.seq.length : ℤ)) (hk : 0 ≤ k) :
    (s.cycle = true →
      (s.pointer + k < 2 * (s.seq.length : ℤ) →
        (s.next k).pointer = (s.pointer + k) % (s.seq.length : ℤ)) ∧
      (-(s.seq.length : ℤ) ≤ s.pointer - k →
        (s.previous k).pointer = (s.pointer - k) % (s.seq.length : ℤ))) ∧
    (s.cycle = false →
      (s.next k).pointer = min (s.pointer + k) ((s.seq.length : ℤ) - 1) ∧
      (s.previous k).pointer = max (s.pointer - k) 0) := by
  set len : ℤ := (s.seq.length : ℤ) with hlen
  refine ⟨fun hc => ⟨fun hub => ?_, fun hlb => ?_⟩,
          fun hc => ⟨s.next_pointer_noncyclic k hc, s.previous_pointer_noncyclic k hc⟩⟩
  · rw [s.next_pointer_cyclic k hc]
    by_cases hbig : s.pointer + k + 1 > len
    · rw [if_pos hbig]
      have h1 : (s.pointer + k) % len = (s.pointer + k - len) % len := by
        conv_lhs => rw [show s.pointer + k = (s.pointer + k - len) + len * 1 by ring]
        rw [Int.add_mul_emod_self_left]
      rw [h1, Int.emod_eq_of_lt (by omega) (by omega)]
    · rw [if_neg hbig, Int.emod_eq_of_lt (by omega) (by omega)]
  · rw [s.previous_pointer_cyclic k hc]
    by_cases hneg : s.pointer - k < 0
    · rw [if_pos hneg]
      have h1 : (s.pointer - k) % len = (len + (s.pointer - k)) % len := by
        conv_rhs => rw [show len + (s.pointer - k) = (s.pointer - k) + len * 1 by ring]
        rw [Int.add_mul_emod_self_left]
      rw [h1, Int.emod_eq_of_lt (by omega) (by omega)]
    · rw [if_neg hneg, Int.emod_eq_of_lt (by omega) (by omega)]

/-- C1 (witness): the amended theorem applied to the cyclic list `[0,1,2]`
with pointer 0 and delta 4: the pointer wraps to `(0+4) mod 3 = 1`. -/
theorem claim1_witness :
    ((SequencePointer.ofList [(0 : ℕ), 1, 2] true).next 4).pointer = 1 := by
  have h := claim1_amended_next_previous (SequencePointer.ofList [(0 : ℕ), 1, 2] true) 4
    (by decide) (by decide) (by decide)
  exact ((h.1 rfl).1 (by decide)).trans (by decide)

/-- C2 (counterexample): on an empty cyclic list, `next 1` moves the pointer
from 0 to 1 — advance on an empty list is not a no-op, contradicting the
claim that the pointer always stays 0 on an empty list. -/
theorem claim2_counterexample :
    ((SequencePointer.ofList ([] : List ℕ) true).next 1).pointer = 1 ∧
    ((SequencePointer.ofList ([] : List ℕ) true).next 1).pointer ≠ 0 := by
  constructor <;> decide

/-- C2 (amended): the constructor sets the pointer to 0; assigning a pointer
value ≥ len clamps to len−1 while any value < len (including negative
values) is stored unchanged; on a non-empty list with an in-range pointer,
`next k`/`previous k` keep the pointer in [0, len) for 0 ≤ k ≤ len
(cyclic) resp. all k ≥ 0 (non-cyclic); on an empty list with pointer 0,
`next k` sets the pointer to k (cyclic) or −1 (non-cyclic) and
`previous k` sets it to −k (cyclic) or 0 (non-cyclic) — only the
non-cyclic retreat is a no-op. -/
theorem claim2_amended_invariants (s : SequencePointer α) (k v : ℤ) :
    ((SequencePointer.ofList s.seq s.cycle).pointer = 0) ∧
    ((s.seq.length : ℤ) ≤ v → (s.set_pointer v).pointer = (s.seq.length : ℤ) - 1) ∧
    (v < (s.seq.length : ℤ) → (s.set_pointer v).pointer = v) ∧
    (0 ≤ s.pointer → s.pointer < (s.seq.length : ℤ) → 0 ≤ k →
      k ≤ (s.seq.length : ℤ) →
        (0 ≤ (s.next k).pointer ∧ (s.next k).pointer < (s.seq.length : ℤ)) ∧
        (0 ≤ (s.previous k).pointer ∧ (s.previous k).pointer < (s.seq.length : ℤ))) ∧
    (s.cycle = false → 0 ≤ s.pointer → s.pointer < (s.seq.length : ℤ) → 0 ≤ k →
        (0 ≤ (s.next k).pointer ∧ (s.next k).pointer < (s.seq.length : ℤ)) ∧
        (0 ≤ (s.previous k).pointer ∧ (s.previous k).pointer < (s.seq.length : ℤ))) ∧
    (s.seq = [] → s.pointer = 0 → 0 ≤ k →
      (s.cycle = true → (s.next k).pointer = k ∧ (s.previous k).pointer = -k) ∧
      (s.cycle = false → (s.next k).pointer = -1 ∧ (s.previous k).pointer = 0)) := by
  refine ⟨rfl, ?_, ?_, ?_, ?_, ?_⟩
  · intro h
    unfold SequencePointer.set_pointer
    rw [if_neg (by omega)]
  · intro h
    unfold SequencePointer.set_pointer
    rw [if_pos h]
  · intro hp0 hpn hk0 hkn
    cases hc : s.cycle
    · rw [s.next_pointer_noncyclic k hc, s.previous_pointer_noncyclic k hc]
      omega
    · rw [s.next_pointer_cyclic k hc, s.previous_pointer_cyclic k hc]
      constructor <;> split <;> omega
  · intro hc hp0 hpn hk0
    rw [s.next_pointer_noncyclic k hc, s.previous_pointer_noncyclic k hc]
    omega
  · intro hnil hp0 hk0
    have hlen : (s.seq.length : ℤ) = 0 := by rw [hnil]; rfl
    refine ⟨fun hc => ?_, fun hc => ?_⟩
    · rw [s.next_pointer_cyclic k hc, s.previous_pointer_cyclic k hc]
      constructor
      · rw [if_pos (by omega)]; omega
      · split <;> omega
    · rw [s.next_pointer_noncyclic k hc, s.previous_pointer_noncyclic k hc]
      omega

/-- C2 (witness): the amended theorem applied to the non-cyclic list
`[0, 1]` with k = 5 and v = 7: the setter clamps 7 to 1. -/
theorem claim2_witness :
    ((SequencePointer.ofList [(0 : ℕ), 1] false).set_pointer 7).pointer = 1 := by
  have h := claim2_amended_invariants (SequencePointer.ofList [(0 : ℕ), 1] false) 5 7
  exact (h.2.1 (by decide)).trans (by decide)

/-! Helper lemmas about the fuzzy-match loop. -/

lemma foldl_matchStep_none (it ii : PyStr) (q : PyStr) :
    q.foldl (matchStep it ii) none = none := by
  induction q with
  | nil => rfl
  | cons c rest ih => simpa [List.foldl_cons, matchStep] using ih

lemma matchStep_some_length {it ii : PyStr} {a b : ℤ × ℚ × List ℕ} {c : PyChar}
    (h : matchStep it ii (some a) c = some b) :
    b.2.2.length = a.2.2.length + 1 := by
  obtain ⟨last, score, idx⟩ := a
  simp only [matchStep] at h
  cases hf : findFrom ii (casefoldChar c) (last + 1).toNat with
  | none => rw [hf] at h; exact absurd h (by simp)
  | some i =>
    rw [hf, Option.some_inj] at h
    simp [← h]

lemma foldl_matchStep_length (it ii : PyStr) :
    ∀ (q : PyStr) (a b : ℤ × ℚ × List ℕ),
      q.foldl (matchStep it ii) (some a) = some b → a.2.2.length ≤ b.2.2.length := by
  intro q
  induction q with
  | nil =>
    intro a b h
    rw [List.foldl_nil, Option.some_inj] at h
    exact h ▸ le_refl _
  | cons c rest ih =>
    intro a b h
    rw [List.foldl_cons] at h
    cases hs : matchStep it ii (some a) c with
    | none => rw [hs, foldl_matchStep_none] at h; exact absurd h (by simp)
    | some a1 =>
      rw [hs] at h
      have h1 := ih a1 b h
      have h2 := matchStep_some_length hs
      omega

lemma foldl_matchStep_eq_specWalk (it ii : PyStr) :
    ∀ (q : PyStr) (last : ℤ) (raw : ℚ) (idx : List ℕ),
      (match q.foldl (matchStep it ii) (some (last, raw, idx)) with
       | none => none
       | some (l, s, ind) =>
         if ind.isEmpty then none else some (ind, s / ((l : ℚ) + 1)))
      = specWalk it ii q last raw idx := by
  intro q
  induction q with
  | nil => intro last raw idx; rfl
  | cons c rest ih =>
    intro last raw idx
    rw [List.foldl_cons]
    cases hf : findFrom ii (casefoldChar c) (last + 1).toNat with
    | none =>
      have hstep : matchStep it ii (some (last, raw, idx)) c = none := by
        simp [matchStep, hf]
      rw [hstep, foldl_matchStep_none]
      simp only [specWalk, hf]
    | some i =>
      have hstep : matchStep it ii (some (last, raw, idx)) c =
          some ((i : ℤ),
            raw + (if it.getD i 0 ≠ c
                    then 1/2 + ((i : ℚ) - (last : ℚ) - 1) * (1/20)
                    else 1 + ((i : ℚ) - (last : ℚ) - 1) * (1/20)),
            idx ++ [i]) := by
        simp [matchStep, hf]
      rw [hstep]
      simp only [specWalk, hf]
      exact ih _ _ _

/-- C3: `_matches_query` coincides with the spec's description
(`matchesSpec`, built from the spec's words) on every query and item;
and on the literal example, query `Ap` matches both `apple` (score 3/4)
and `Apple` (score 1), so `Apple` scores strictly higher. -/
theorem claim3_matches_query_spec :
    (∀ query item : PyStr, matches_query query item = matchesSpec query item) ∧
    matches_query [0x41, 0x70] [0x61, 0x70, 0x70, 0x6c, 0x65] = some ([0, 1], 3/4) ∧
    matches_query [0x41, 0x70] [0x41, 0x70, 0x70, 0x6c, 0x65] = some ([0, 1], 1) ∧
    (3/4 : ℚ) < 1 := by
  refine ⟨?_, ?_, ?_, by norm_num⟩
  · intro q item
    show (match q.foldl (matchStep item (item.map casefoldChar)) (some (-1, 0, [])) with
          | none => none
          | some (l, s, ind) =>
            if ind.isEmpty then none else some (ind, s / ((l : ℚ) + 1)))
        = specWalk item (item.map casefoldChar) q (-1) 0 []
    exact foldl_matchStep_eq_specWalk item (item.map casefoldChar) q (-1) 0 []
  · norm_num [matches_query, matchStep, findFrom, casefoldChar, List.foldl, List.findIdx?]
  · norm_num [matches_query, matchStep, findFrom, casefoldChar, List.foldl, List.findIdx?]

/-- C4 (counterexample): extending the empty query by `a` breaks
monotonicity as claimed: `_matches_query("a", "a")` accepts the item but
`_matches_query("", "a")` returns `None` (its index list is empty), so
"if the extended query accepts then the query accepts" fails at q = "". -/
theorem claim4_counterexample :
    (matches_query ([] ++ [97]) [97]).isSome = true ∧
    (matches_query [] [97]).isSome = false := by
  constructor
  · norm_num [matches_query, matchStep, findFrom, casefoldChar, List.foldl, List.findIdx?]
  · norm_num [matches_query, List.foldl]

/-- C4 (amended): for every NON-EMPTY query q, character c and item, if
`_matches_query(q + c, item)` accepts the item then `_matches_query(q,
item)` accepts it too; the empty query is the one exception, since
`_matches_query` rejects everything on it (and `search_bar` special-cases
it to show all candidates). -/
theorem claim4_amended_monotone (q : PyStr) (c : PyChar) (item : PyStr)
    (hq : q ≠ [])
    (h : (matches_query (q ++ [c]) item).isSome = true) :
    (matches_query q item).isSome = true := by
  rw [matches_query] at h ⊢
  set ii := item.map casefoldChar with hii
  rw [List.foldl_append, List.foldl_cons, List.foldl_nil] at h
  cases hq0 : q.foldl (matchStep item ii) (some (-1, 0, [])) with
  | none =>
    rw [hq0] at h
    simp only [matchStep] at h
    exact absurd h (by simp)
  | some a =>
    obtain ⟨c1, rest, rfl⟩ : ∃ c1 rest, q = c1 :: rest := by
      cases q with
      | nil => exact absurd rfl hq
      | cons c1 rest => exact ⟨c1, rest, rfl⟩
    obtain ⟨l, s, ind⟩ := a
    have hlen : 1 ≤ ind.length := by
      rw [List.foldl_cons] at hq0
      cases hs1 : matchStep item ii (some (-1, 0, [])) c1 with
      | none => rw [hs1, foldl_matchStep_none] at hq0; exact absurd hq0 (by simp)
      | some a1 =>
        rw [hs1] at hq0
        have h1 := matchStep_some_length hs1
        have h2 := foldl_matchStep_length item ii rest a1 (l, s, ind) hq0
        simp at h1 h2
        omega
    have : ind.isEmpty = false := by
      cases ind with
      | nil => simp at hlen
      | cons x xs => rfl
    simp [this]

/-- C4 (witness): the amended monotonicity applied at q = "a", c = "p",
item = "ap" (code points): acceptance of "ap" implies acceptance of "a". -/
theorem claim4_witness :
    ([(97 : ℕ)] : PyStr) ≠ [] ∧ (matches_query [(97 : ℕ)] [97, 112]).isSome = true :=
  ⟨by decide, claim4_amended_monotone [97] 112 [97, 112] (by decide)
    (by norm_num [matches_query, matchStep, findFrom, casefoldChar, List.foldl,
      List.findIdx?])⟩

/-- C5: for a `FuzzyFinder` state with a non-empty, non-cyclic sublist,
at least one visible line, and the viewport invariant holding (pointer in
range and in the window, `start_index ∈ [0, max 0 (len − maxlines)]`),
`next_item k` and `previous_item k` (k ≥ 0) preserve the invariant and
scroll by exactly enough to bring the pointer into view
(`start' = max start (p' − maxlines + 1)` resp. `start' = min start p'`);
and concretely, on 50 items with `maxlines = 10` and pointer 0,
`next_item 15` yields pointer 15 and `start_index` 6, after which
`previous_item 20` yields pointer 0 and `start_index` 0. -/
theorem claim5_viewport {α : Type} :
    (∀ (f : FFState α) (k : ℤ), f.sub.cycle = false → 1 ≤ f.maxlines → 0 ≤ k →
      FFInv f →
      (FFInv (f.next_item k) ∧
        (f.next_item k).start_index =
          max f.start_index ((f.next_item k).sub.pointer - f.maxlines + 1)) ∧
      (FFInv (f.previous_item k) ∧
        (f.previous_item k).start_index =
          min f.start_index (f.previous_item k).sub.pointer)) ∧
    ((ff50.next_item 15).sub.pointer = 15 ∧ (ff50.next_item 15).start_index = 6 ∧
     ((ff50.next_item 15).previous_item 20).sub.pointer = 0 ∧
     ((ff50.next_item 15).previous_item 20).start_index = 0) := by
  constructor
  · intro f k hc hm hk hinv
    obtain ⟨h1, h2, h3, h4, h5, h6⟩ := hinv
    have hne : f.sub.seq.length ≠ 0 := by omega
    have hnp := f.sub.next_pointer_noncyclic k hc
    have hns := f.sub.next_seq k
    have hpp := f.sub.previous_pointer_noncyclic k hc
    have hps := f.sub.previous_seq k
    constructor
    · simp only [FFState.next_item, FFState.scroll_down]
      rw [if_pos hne]
      rw [hnp, hns]
      simp only [FFInv]
      split_ifs <;> (try dsimp only) <;> (try rw [hnp, hns]) <;> omega
    · simp only [FFState.previous_item, FFState.scroll_to_view, FFState.scroll_up,
        FFState.scroll_down]
      rw [if_pos hne]
      rw [hpp, hps]
      simp only [FFInv]
      split_ifs <;> (try dsimp only) <;> (try rw [hpp, hps]) <;>
        first
          | omega
          | (rw [abs_of_neg (by omega)]; omega)
  · exact ⟨by decide, by decide, by decide, by decide⟩

/-- C5 (witness): the viewport theorem applied to the concrete 50-item
state `ff50` with k = 15: the invariant holds afterwards and the window
scrolled to `start_index = max 0 (15 − 10 + 1) = 6`. -/
theorem claim5_witness :
    FFInv (ff50.next_item 15) ∧
    (ff50.next_item 15).start_index =
      max ff50.start_index ((ff50.next_item 15).sub.pointer - ff50.maxlines + 1) := by
  have h := (claim5_viewport (α := ℕ)).1 ff50 15 (by decide) (by decide) (by decide)
    ⟨by decide, by decide, by decide, by decide, by decide, by decide⟩
  exact h.1

/-! Helper lemmas for the LineBuffer claims. -/

lemma insert_cond_iff (s : PyStr) :
    ((ctrlEq enterCodes s = false ∧ pyIsspace s = true) ∨
     (s.length = 1 ∧ 0x20 ≤ s.headI)) ↔ insertAccepts s := by
  unfold insertAccepts
  constructor
  · rintro (⟨h1, h2⟩ | ⟨h1, h2⟩)
    · left
      simp only [ctrlEq, enterCodes] at h1
      simp only [pyIsspace, Bool.and_eq_true, Bool.not_eq_true', List.isEmpty_eq_false,
        List.all_eq_true] at h2
      simp at h1
      exact ⟨h2.1, h2.2, h1.1, h1.2.1, h1.2.2⟩
    · right
      cases s with
      | nil => simp at h1
      | cons c rest =>
        cases rest with
        | nil => exact ⟨c, rfl, by simpa using h2⟩
        | cons d r2 => simp at h1
  · rintro (⟨h1, h2, h3, h4, h5⟩ | ⟨c, rfl, hc⟩)
    · left
      constructor
      · simp [ctrlEq, enterCodes]
        exact ⟨h3, h4, h5⟩
      · simp only [pyIsspace, Bool.and_eq_true, Bool.not_eq_true', List.isEmpty_eq_false,
          List.all_eq_true]
        exact ⟨h1, h2⟩
    · right
      exact ⟨rfl, hc⟩

lemma replicate_space_ne {t : ℕ} {l : List ℕ} (x : ℕ) (hm : x ∈ l) (hne : x ≠ 0x20) :
    List.replicate t 0x20 ≠ l := by
  intro h
  exact hne ((List.eq_replicate_iff.mp h.symm).2 x hm)

/-- C6 (counterexample): `key('.')` does not insert `'.'` although
`ord('.') = 0x2e ≥ 0x20` — `'\x2e'` is a `Ctrl.DEL` alias, so the DEL
branch swallows it; and `insert("a b")` rejects a burst that CONTAINS
whitespace but is not entirely whitespace (`str.isspace` is
all-whitespace), refuting both halves of the claim as stated. -/
theorem claim6_counterexample :
    ((LineBuffer.init.key [0x2e]).1.line = [] ∧ (0x20 : ℕ) ≤ 0x2e) ∧
    (LineBuffer.init.insert [97, 32, 98] = LineBuffer.init ∧
      (32 : ℕ) ∈ [97, 32, 98] ∧ isspaceChar 32 = true ∧
      ctrlEq enterCodes [32] = false) := by decide

/-- C6 (amended): `insert` accepts a burst iff it is a non-empty
all-whitespace string that is not an ENTER alias, or a single character
with code ≥ 0x20; on acceptance the burst is spliced in at the cursor
and the cursor advances by 1, otherwise the buffer is unchanged; and
`key(c)` inserts `c` for every single character with `ord(c) ≥ 0x20`
EXCEPT the DEL alias `'\x2e'` (`'.'`) and the BACKSPACE alias `'\x7f'`,
which take the deletion branch instead. -/
theorem claim6_amended_insert_key (b : LineBuffer) (s : PyStr) (c : ℕ) :
    (insertAccepts s →
      b.insert s = { b with line := b.line.take b.pos ++ s ++ b.line.drop b.pos,
                            pos := b.pos + 1 }) ∧
    (¬ insertAccepts s → b.insert s = b) ∧
    (0x20 ≤ c → c ≠ 0x2e → c ≠ 0x7f →
      b.key [c] = ({ b with line := b.line.take b.pos ++ [c] ++ b.line.drop b.pos,
                            pos := b.pos + 1 }, none)) := by
  refine ⟨?_, ?_, ?_⟩
  · intro h
    rw [LineBuffer.insert, if_pos ((insert_cond_iff s).mpr h)]
  · intro h
    rw [LineBuffer.insert, if_neg (fun hc => h ((insert_cond_iff s).mp hc))]
  · intro h32 h2e h7f
    have hdel : ctrlEq delCodes [c] = false := by simp [ctrlEq, delCodes]; omega
    have hbs : ctrlEq backspaceCodes [c] = false := by
      simp [ctrlEq, backspaceCodes]; omega
    have htab : ctrlEq tabCodes [c] = false := by simp [ctrlEq, tabCodes]; omega
    have hra : ctrlEq rArrowCodes [c] = false := by simp [ctrlEq, rArrowCodes]
    have hla : ctrlEq lArrowCodes [c] = false := by simp [ctrlEq, lArrowCodes]
    have hua : ctrlEq uArrowCodes [c] = false := by simp [ctrlEq, uArrowCodes]
    have hda : ctrlEq dArrowCodes [c] = false := by simp [ctrlEq, dArrowCodes]
    have hho : ctrlEq homeCodes [c] = false := by simp [ctrlEq, homeCodes]
    have hen : ctrlEq endCodes [c] = false := by simp [ctrlEq, endCodes]
    have hcl : ctrlEq ctrlLArrowCodes [c] = false := by simp [ctrlEq, ctrlLArrowCodes]
    have hcr : ctrlEq ctrlRArrowCodes [c] = false := by simp [ctrlEq, ctrlRArrowCodes]
    have hol : ctrlEq optLArrowCodes [c] = false := by simp [ctrlEq, optLArrowCodes]
    have hor : ctrlEq optRArrowCodes [c] = false := by simp [ctrlEq, optRArrowCodes]
    have hent : ctrlEq enterCodes [c] = false := by simp [ctrlEq, enterCodes]; omega
    have hins : b.insert [c] =
        { b with line := b.line.take b.pos ++ [c] ++ b.line.drop b.pos,
                 pos := b.pos + 1 } := by
      rw [LineBuffer.insert, if_pos (Or.inr ⟨rfl, h32⟩)]
    rw [LineBuffer.key]
    simp only [hdel, hbs, htab, hra, hla, hua, hda, hho, hen, hcl, hcr, hol, hor,
      hent, Bool.false_or, Bool.or_self, Bool.false_eq_true, if_false, ite_self,
      false_and, and_false, ite_false, hins]

/-- C6 (witness): the amended theorem at the freshly constructed buffer:
`insert(' ')` splices a space in, and `key('A')` inserts `'A'`. -/
theorem claim6_witness :
    LineBuffer.init.insert [0x20] = { LineBuffer.init with line := [0x20], pos := 1 } ∧
    LineBuffer.init.key [0x41] =
      ({ LineBuffer.init with line := [0x41], pos := 1 }, none) := by
  refine ⟨?_, ?_⟩
  · exact ((claim6_amended_insert_key LineBuffer.init [0x20] 0x41).1
      (Or.inr ⟨0x20, rfl, by decide⟩)).trans (by decide)
  · exact ((claim6_amended_insert_key LineBuffer.init [0x20] 0x41).2.2
      (by decide) (by decide) (by decide)).trans (by decide)

/-- C7 (counterexample): with CTRL_D bound to one action, `_handle` on
the `'\x04'` burst still runs `end()` and raises `sys.exit(1)` — the
rescue is NOT suppressed by a binding, since the source checks only
`key == '\x04'`. -/
theorem claim7_counterexample :
    0 < boundCtrlD [0x04] ∧
    HandleEvent.endRecorder ∈ handle boundCtrlD [0x04] ∧
    HandleEvent.sysExit 1 ∈ handle boundCtrlD [0x04] := by decide

/-- C7 (amended): on a CTRL_D burst, `_handle` fires the bound actions
(if any) and then unconditionally ends the recorder and raises
`sys.exit(1)`, never reaching the hook — bound or not; on any other
burst the bound actions fire and the hook receives the burst, with no
rescue. -/
theorem claim7_amended_rescue (nb : PyStr → ℕ) (key : PyStr) :
    (key = [0x04] →
      handle nb key = (List.range (nb key)).map HandleEvent.runBinding ++
        [HandleEvent.endRecorder, HandleEvent.sysExit 1] ∧
      ∀ k, HandleEvent.runHook k ∉ handle nb key) ∧
    (key ≠ [0x04] →
      handle nb key = (List.range (nb key)).map HandleEvent.runBinding ++
        [HandleEvent.runHook key] ∧
      HandleEvent.sysExit 1 ∉ handle nb key ∧
      HandleEvent.endRecorder ∉ handle nb key) := by
  constructor
  · intro hk
    subst hk
    refine ⟨by simp [handle], ?_⟩
    intro k
    simp [handle]
  · intro hk
    refine ⟨by simp [handle, hk], ?_, ?_⟩ <;> simp [handle, hk]

/-- C7 (witness): the amended theorem at an empty bindings table and the
CTRL_D burst: the trace is exactly `end` followed by `sys.exit(1)`. -/
theorem claim7_witness :
    handle (fun _ => 0) [0x04] = [HandleEvent.endRecorder, HandleEvent.sysExit 1] := by
  have h := (claim7_amended_rescue (fun _ => 0) [0x04]).1 rfl
  simpa using h.1

/-- C8: calling `start()` on recorder `i` while another live recorder
`j` is not in its original line discipline (`normal = false`) raises the
conflict error before any tty change: the returned world — including the
other recorder's saved termios and `normal` flag and the tty discipline —
is exactly the input world. -/
theorem claim8_conflict_raises (w : TtyWorld) (i j : ℕ)
    (hj : j < w.recs.length) (hij : j ≠ i)
    (hn : (w.recs.getD j { normal := true, old_settings := none }).normal = false) :
    start_enter w i = (w, some TermError.conflict) ∧
    (start_enter w i).1.recs = w.recs ∧
    (start_enter w i).1.discipline = w.discipline := by
  have hany : (List.range w.recs.length).any
      (fun j0 => j0 != i &&
        !(w.recs.getD j0 { normal := true, old_settings := none }).normal) = true := by
    rw [List.any_eq_true]
    refine ⟨j, List.mem_range.mpr hj, ?_⟩
    rw [Bool.and_eq_true, bne_iff_ne, Bool.not_eq_true']
    exact ⟨hij, hn⟩
  have h : start_enter w i = (w, some TermError.conflict) := by
    rw [start_enter, if_pos hany]
  exact ⟨h, by rw [h], by rw [h]⟩

/-- C8 (witness): the conflict theorem at the two-recorder world in
which recorder 0 has started: starting recorder 1 raises the conflict
error and leaves the world unchanged. -/
theorem claim8_witness :
    start_enter conflictWorld 1 = (conflictWorld, some TermError.conflict) := by
  have h := claim8_conflict_raises conflictWorld 1 0 (by decide) (by decide) (by decide)
  exact h.1

/-- C9 (counterexample): `trim("abcd", 4)` returns `"a..."`, not
`"abcd"`, although `len(s) = 4 ≤ w = 4` — the source truncates whenever
`3 ≤ w ≤ len(s)`, including at equality. -/
theorem claim9_counterexample :
    trim [97, 98, 99, 100] 4 0 ≠ [97, 98, 99, 100] ∧
    ([97, 98, 99, 100] : PyStr).length ≤ 4 := by decide

/-- C9 (amended): for w ≥ 3, `trim(s, w)` has length ≤ w; it equals s
exactly when `len(s) < w` (strictly); and when `w ≤ len(s)` it equals
`s[:w−3] + '...'`, of length exactly w, ending in one inserted
ellipsis. -/
theorem claim9_amended_trim (s : PyStr) (w : ℤ) (hw : 3 ≤ w) :
    ((trim s w 0).length : ℤ) ≤ w ∧
    ((s.length : ℤ) < w → trim s w 0 = s) ∧
    (w ≤ (s.length : ℤ) →
      trim s w 0 = s.take (w - 3).toNat ++ [0x2e, 0x2e, 0x2e] ∧
      ((trim s w 0).length : ℤ) = w) := by
  by_cases hc : w ≤ (s.length : ℤ)
  · have heq : trim s w 0 = s.take (w - 3).toNat ++ [0x2e, 0x2e, 0x2e] := by
      rw [trim, if_pos ⟨hw, hc⟩, pySliceTo, pySliceFrom]
      rw [if_pos (by omega : (0:ℤ) ≤ w - 0 - 3),
        if_pos (by omega : (0:ℤ) ≤ (s.length : ℤ) - 0)]
      simp only [show ((s.length : ℤ) - 0).toNat = s.length by omega, List.drop_length,
        List.append_nil]
      congr 2
      omega
    have hlen : ((trim s w 0).length : ℤ) = w := by
      rw [heq]
      simp only [List.length_append, List.length_take, List.length_cons,
        List.length_nil]
      push_cast
      omega
    exact ⟨by omega, fun h => absurd hc (by omega), fun _ => ⟨heq, hlen⟩⟩
  · have heq : trim s w 0 = s := by
      rw [trim, if_neg (by tauto)]
    refine ⟨by rw [heq]; omega, fun _ => heq, fun h => absurd h hc⟩

/-- C9 (witness): the amended theorem at `s = "abcde"`, `w = 4`:
the result is `"a..."`. -/
theorem claim9_witness :
    trim [97, 98, 99, 100, 101] 4 0 = [97, 0x2e, 0x2e, 0x2e] := by
  have h := claim9_amended_trim [97, 98, 99, 100, 101] 4 (by decide)
  exact ((h.2.2 (by decide)).1).trans (by decide)

/-- C10: for a `LineBuffer` with `tab_size t > 1`, in any state,
`key(TAB)` inserts a run of t spaces at the cursor (`'\t'.expandtabs(t)`
is accepted by `insert` as a non-ENTER all-whitespace burst) while the
cursor advances by exactly 1, landing just after the first inserted
space. -/
theorem claim10_tab_inserts_run (b : LineBuffer) (ht : 1 < b.tabsize) :
    b.key [0x09] = ({ b with
      line := b.line.take b.pos ++ List.replicate b.tabsize 0x20 ++ b.line.drop b.pos,
      pos := b.pos + 1 }, none) := by
  have h13 : List.replicate b.tabsize 0x20 ≠ [0x0d] :=
    replicate_space_ne 0x0d (by simp) (by omega)
  have h10 : List.replicate b.tabsize 0x20 ≠ [0x0a] :=
    replicate_space_ne 0x0a (by simp) (by omega)
  have h1b : List.replicate b.tabsize 0x20 ≠ [0x1b, 0x4f, 0x4d] :=
    replicate_space_ne 0x1b (by simp) (by omega)
  have hcond : (ctrlEq enterCodes (List.replicate b.tabsize 0x20) = false ∧
      pyIsspace (List.replicate b.tabsize 0x20) = true) ∨
      ((List.replicate b.tabsize 0x20).length = 1 ∧
        0x20 ≤ (List.replicate b.tabsize 0x20).headI) := by
    left
    constructor
    · simp [ctrlEq, enterCodes, h13, h10, h1b]
    · simp only [pyIsspace, Bool.and_eq_true, Bool.not_eq_true', List.isEmpty_eq_false,
        List.all_eq_true]
      constructor
      · intro h
        have hl := congrArg List.length h
        simp at hl
        omega
      · intro x hx
        rw [List.eq_of_mem_replicate hx]
        decide
  rw [LineBuffer.key]
  rw [show ctrlEq delCodes [0x09] = false from by decide,
      show ctrlEq backspaceCodes [0x09] = false from by decide,
      show ctrlEq tabCodes [0x09] = true from by decide]
  simp only [Bool.false_or, Bool.or_self, Bool.false_eq_true, if_false, if_true]
  rw [LineBuffer.insert]
  simp only [expandTab]
  rw [if_pos hcond]

/-- C10 (witness): the TAB theorem at the default buffer
(`tab_size = 4`): the line becomes four spaces and the cursor is 1. -/
theorem claim10_witness :
    LineBuffer.init.key [0x09] =
      ({ LineBuffer.init with line := [0x20, 0x20, 0x20, 0x20], pos := 1 }, none) := by
  exact (claim10_tab_inserts_run LineBuffer.init (by decide)).trans (by decide)

end TermAppPack
